import Mathlib

set_option autoImplicit false

/-!
Verification of the fonoster voice-server and funcs-client modules.

The definitions below are a shallow embedding of
`src/mods/voice/src/server.ts` and `src/mods/funcs/src/client/funcs.ts`.
Opaque payloads (request bodies, realtime frames, progress messages) are
modelled as `String`; object identity of JavaScript allocations is modelled
by a natural-number allocation id threaded through each run.
-/

namespace Fonos
namespace Voice

/-- Opaque payload: an HTTP request body or a realtime frame. -/
abbrev Msg := String

/-- The fully-resolved `ServerConfig` record: `path`, `port`, `bind`. -/
structure ServerConfig where
  path : String
  port : Nat
  bind : String
deriving DecidableEq, Repr

/-- A configuration object as a caller writes it: each of the three
recognized keys may be present or absent. -/
structure ConfigInput where
  path : Option String
  port : Option Nat
  bind : Option String
deriving DecidableEq, Repr

/-- Module constant `defaultServerConfig` from `server.ts`. -/
def defaultServerConfig : ServerConfig :=
  { path := "/", port := 3000, bind := "0.0.0.0" }

/-- Embedding of `deepmerge` on two flat records of scalars: a key present in
the second object wins, a key absent from it falls back to the first. -/
def merge (base : ServerConfig) (given : ConfigInput) : ServerConfig :=
  { path := given.path.getD base.path
    port := given.port.getD base.port
    bind := given.bind.getD base.bind }

/-- A fully-resolved config written out as a config object with every key
present (the shape of the literal `defaultServerConfig` when it is passed as
the defaulted constructor argument). -/
def ServerConfig.asInput (c : ServerConfig) : ConfigInput :=
  { path := some c.path, port := some c.port, bind := some c.bind }

/-- Embedding of `VoiceServer.constructor`: the parameter defaults to
`defaultServerConfig` when omitted, and
`this.config = merge(defaultServerConfig, config)`. -/
def VoiceServer.mkConfig : Option ConfigInput → ServerConfig
  | none => merge defaultServerConfig defaultServerConfig.asInput
  | some c => merge defaultServerConfig c

/-- A body written to an HTTP response by `res.send`: either a text string
or the raw bytes of a file. -/
inductive SentBody where
  | text (s : String)
  | bytes (data : List Nat)
deriving DecidableEq, Repr

/-- The observable state of the HTTP response produced by the tts route:
what was sent, which content type header was set, and whether the
response was ended. -/
structure TtsResponse where
  body : Option SentBody
  contentType : Option String
  ended : Bool
deriving DecidableEq, Repr

/-- Embedding of the `GET /tts/:file` route of `VoiceServer.listen`.
`fs` models the filesystem: the bytes of each readable path, `none` when
`fs.readFile` reports an error. On error the route sends the fixed error
text; on success it sets the audio content type and sends the data; both
branches then call `res.end()`. The function is total: no input makes the
route itself throw. -/
def ttsRoute (fs : String → Option (List Nat)) (file : String) : TtsResponse :=
  match fs ("./.tts/" ++ file) with
  | none =>
      { body := some (SentBody.text "unable to find or open file")
        contentType := none
        ended := true }
  | some data =>
      { body := some (SentBody.bytes data)
        contentType := some "audio/x-wav"
        ended := true }

/-- Identity of the module-level bus object `const voiceEvents = new
VoiceEvents()`: a single instance allocated once when `server.ts` is
loaded. Bus instances are identified by allocation id; this is the only
bus the module ever allocates. -/
def voiceEvents : Nat := 0

/-- How one invocation of the user handler finishes: a normal return or an
uncaught throw carrying an error value. -/
inductive HandlerOutcome where
  | normal
  | thrown (e : String)
deriving DecidableEq, Repr

/-- What one invocation of the user handler does: the actions it appended to
the builder it was handed, and how it finished. -/
structure HandlerResult where
  actions : List String
  outcome : HandlerOutcome
deriving DecidableEq, Repr

/-- A `VoiceResponse` builder object as constructed by the POST route:
`new VoiceResponse(req.body, voiceEvents)`. `objId` is the allocation
identity (fresh per `new`), `reqBody` the first constructor argument, and
`bus` the identity of the bus instance passed as the second argument. -/
structure VoiceResponse where
  objId : Nat
  reqBody : Msg
  bus : Nat
deriving DecidableEq, Repr

/-- The observable effect of serving one POST request: the builder that was
constructed and passed to the handler, the action sequence that handler
produced on it, how many times `res.end()` ran, and the error (if any)
that escaped the route uncaught. -/
structure PostResult where
  builder : VoiceResponse
  actions : List String
  endCalls : Nat
  uncaught : Option String
deriving DecidableEq, Repr

/-- A user handler: given the request body and the builder, it yields the
actions it adds and its outcome. -/
abbrev Handler := Msg → VoiceResponse → HandlerResult

/-- Embedding of the `app.post(this.config.path, ...)` route of
`VoiceServer.listen`. A fresh `VoiceResponse` is constructed (with the next
allocation id) bound to the module bus, the handler is awaited, and then
`res.end()` runs. The route body has no try/catch: when the awaited handler
throws, the error escapes the async route function and `res.end()` is never
reached. -/
def postRoute (handler : Handler) (body : Msg) (objId : Nat) : PostResult :=
  let response : VoiceResponse := { objId := objId, reqBody := body, bus := voiceEvents }
  let hr := handler body response
  { builder := response
    actions := hr.actions
    endCalls := match hr.outcome with
      | HandlerOutcome.normal => 1
      | HandlerOutcome.thrown _ => 0
    uncaught := match hr.outcome with
      | HandlerOutcome.normal => none
      | HandlerOutcome.thrown e => some e }

/-- A run of the POST route over a sequence of inbound requests, threading
the allocation counter: each request constructs its own `new VoiceResponse`. -/
def postRun (handler : Handler) : List Msg → Nat → List PostResult
  | [], _ => []
  | b :: bs, n => postRoute handler b n :: postRun handler bs (n + 1)

/-- One `broadcast` call made on a bus instance, with the payload passed. -/
structure Broadcast where
  bus : Nat
  payload : Msg
deriving DecidableEq, Repr

/-- Embedding of the per-message websocket handler registered in
`VoiceServer.init`: `ws.on("message", (msg) => voiceEvents.broadcast(msg))`.
It is a pure function of the single message: one broadcast of the raw
payload to the module bus, and no outbound frames. -/
def wsMessage (msg : Msg) : List Broadcast × List Msg :=
  ([{ bus := voiceEvents, payload := msg }], [])

/-- A run of one realtime connection over its inbound message sequence:
the broadcasts made and the frames sent back to the client. -/
def wsRun : List Msg → List Broadcast × List Msg
  | [] => ([], [])
  | m :: ms =>
      ((wsMessage m).1 ++ (wsRun ms).1, (wsMessage m).2 ++ (wsRun ms).2)

/-- Modelled from the spec: the Event Bus listener set (`events.ts` is not
under `src/`). Listeners are identified by their subscription handle;
`nextHandle` is the next fresh handle. -/
structure EventBus where
  listeners : List Nat
  nextHandle : Nat
deriving DecidableEq, Repr

/-- Modelled from the spec: `subscribe` registers a listener and returns a
handle for later unsubscription. -/
def EventBus.subscribe (b : EventBus) : Nat × EventBus :=
  (b.nextHandle, { listeners := b.listeners ++ [b.nextHandle], nextHandle := b.nextHandle + 1 })

/-- Modelled from the spec: `unsubscribe` is idempotent removal of the
listener registered under the handle. -/
def EventBus.unsubscribe (b : EventBus) (h : Nat) : EventBus :=
  { listeners := b.listeners.filter (fun l => l ≠ h), nextHandle := b.nextHandle }

/-- Outcome of a `waitForEvent` call: the resolving message, or a
distinguishable timeout outcome. -/
inductive WaitOutcome where
  | event (m : Msg)
  | timedOut
deriving DecidableEq, Repr

/-- Modelled from the spec: `waitForEvent(predicate, timeout)` of the
Action Response Builder (`voice.ts` is not under `src/`). It subscribes to
the bus, waits for the first broadcast message satisfying the predicate
among those delivered before the timeout elapses, then unsubscribes and
resolves with that message, or with the timeout outcome when none arrives
in time. `arrivals` is the stream of broadcast messages delivered after
the call, each paired with the time elapsed since the call at which it
arrives. -/
def waitForEvent (bus : EventBus) (pred : Msg → Bool) (t : Nat)
    (arrivals : List (Msg × Nat)) : WaitOutcome × EventBus :=
  let sub := bus.subscribe
  let inWindow := arrivals.takeWhile (fun a => a.2 < t)
  let out := match inWindow.find? (fun a => pred a.1) with
    | some a => WaitOutcome.event a.1
    | none => WaitOutcome.timedOut
  (out, sub.2.unsubscribe sub.1)

end Voice
end Fonos

namespace Fonos
namespace Funcs

/-- Opaque error value carried by a rejected promise or a failed stream. -/
abbrev Err := String

/-- Opaque progress message emitted by the deployment stream. -/
abbrev ProgressMsg := String

/-- An event observed on the deployment RPC stream returned by
`super.getService().deployFunc(req, super.getMeta())`. -/
inductive StreamEvent where
  | data (m : ProgressMsg)
  | ended
  | error (e : Err)
deriving DecidableEq, Repr

/-- Settlement of a JavaScript promise. -/
inductive Settled (ε α : Type) where
  | resolved (a : α)
  | rejected (e : ε)
deriving DecidableEq, Repr

/-- State of the promise returned by `deployFunc` while the stream is being
consumed: the messages forwarded to the caller's emitter so far, and the
settlement if any (a settled promise never changes again). -/
structure DeployState where
  forwarded : List ProgressMsg
  settled : Option (Settled Err Unit)
deriving DecidableEq, Repr

/-- Embedding of the stream listeners installed by `deployFunc`: a `data`
event forwards the message to the emitter when one was supplied; an `end`
event resolves the promise; an `error` event rejects it with the stream's
error. Settlement is first-wins: a later resolve or reject leaves an
already-settled promise unchanged. -/
def deployStep (emitterPresent : Bool) (s : DeployState) : StreamEvent → DeployState
  | StreamEvent.data m =>
      { s with forwarded := s.forwarded ++ (if emitterPresent then [m] else []) }
  | StreamEvent.ended =>
      { s with settled := some (s.settled.getD (Settled.resolved ())) }
  | StreamEvent.error e =>
      { s with settled := some (s.settled.getD (Settled.rejected e)) }

/-- The whole stream phase of one `deployFunc` call: fold the listeners over
the sequence of events the stream emits, starting from no forwarded
messages and a pending promise. -/
def deployRun (emitterPresent : Bool) (events : List StreamEvent) : DeployState :=
  events.foldl (deployStep emitterPresent) { forwarded := [], settled := none }

/-- A stream terminated by the given terminal signal: the `end` event for a
normal finish, the `error` event for a failure. -/
def terminalEvent : Settled Err Unit → StreamEvent
  | Settled.resolved _ => StreamEvent.ended
  | Settled.rejected e => StreamEvent.error e

/-- A gRPC `Func` message: the five getters `funcs.ts` reads from it. -/
structure Func where
  name : String
  image : String
  invocationCount : Nat
  replicas : Nat
  availableReplicas : Nat
deriving DecidableEq, Repr

/-- The `GetFuncResponse` object `getFunc` resolves with. -/
structure GetFuncResponse where
  name : String
  image : String
  invocationCount : Nat
  replicas : Nat
  availableReplicas : Nat
deriving DecidableEq, Repr

/-- The `DeleteFuncResponse` object `deleteFunc` resolves with. -/
structure DeleteFuncResponse where
  name : String
deriving DecidableEq, Repr

/-- One step a promise-executor callback body performs, in program order:
calling `reject`, calling `resolve` with a value, or throwing while
evaluating (which aborts the rest of the callback without settling
anything). -/
inductive CbAction (ε α : Type) where
  | reject (e : ε)
  | resolve (a : α)
  | raise
deriving DecidableEq, Repr

/-- Settlement resulting from a sequence of callback steps: the first
`resolve` or `reject` settles the promise and later calls are ignored; a
throw stops execution, so nothing after it runs. -/
def settleOf {ε α : Type} : List (CbAction ε α) → Option (Settled ε α)
  | [] => none
  | CbAction.reject e :: _ => some (Settled.rejected e)
  | CbAction.resolve a :: _ => some (Settled.resolved a)
  | CbAction.raise :: _ => none

/-- Embedding of the callback body of `getFunc`:
`if (e) reject(e); resolve({...five getters of res...})`. There is no
`return` after `reject` and no `else`, so the resolve statement is reached
in the error case too; but when the call failed there is no response
object, and evaluating `res.getName()` throws before `resolve` can run. -/
def getFuncCallback (e : Option Err) (res : Option Func) :
    List (CbAction Err GetFuncResponse) :=
  (match e with
   | some err => [CbAction.reject err]
   | none => []) ++
  (match res with
   | some r => [CbAction.resolve
       { name := r.name
         image := r.image
         invocationCount := r.invocationCount
         replicas := r.replicas
         availableReplicas := r.availableReplicas }]
   | none => [CbAction.raise])

/-- Embedding of the callback body of `deleteFunc`:
`if (e) reject(e); resolve({name: request.name})`. The callback signature
takes only the error, so the server's response payload `resp` is never
read; the resolved object echoes the name from the caller's request. -/
def deleteFuncCallback {ρ : Type} (requestName : String) (e : Option Err) (resp : ρ) :
    List (CbAction Err DeleteFuncResponse) :=
  (match e with
   | some err => [CbAction.reject err]
   | none => []) ++ [CbAction.resolve { name := requestName }]

end Funcs
end Fonos

namespace Fonos
namespace Voice

theorem postRun_length (handler : Handler) (bodies : List Msg) (n : Nat) :
    (postRun handler bodies n).length = bodies.length := by
  induction bodies generalizing n with
  | nil => rfl
  | cons b bs ih => simp [postRun, ih]

theorem postRun_get (handler : Handler) (bodies : List Msg) (n i : Nat)
    (hi : i < (postRun handler bodies n).length) :
    (postRun handler bodies n).get ⟨i, hi⟩ =
      postRoute handler (bodies.get ⟨i, by
        have := postRun_length handler bodies n; omega⟩) (n + i) := by
  induction bodies generalizing n i with
  | nil => simp [postRun] at hi
  | cons b bs ih =>
      cases i with
      | zero => rfl
      | succ j =>
          have hj : j < (postRun handler bs (n + 1)).length := by
            simpa [postRun] using hi
          have := ih (n + 1) j hj
          simpa [postRun, List.get, Nat.add_assoc, Nat.add_comm, Nat.add_left_comm] using this

theorem postRun_bus (handler : Handler) (bodies : List Msg) (n : Nat) :
    ∀ r ∈ postRun handler bodies n, r.builder.bus = voiceEvents := by
  induction bodies generalizing n with
  | nil => intro r hr; simp [postRun] at hr
  | cons b bs ih =>
      intro r hr
      rcases (by simpa [postRun] using hr : r = postRoute handler b n ∨ r ∈ postRun handler bs (n + 1)) with h | h
      · subst h; rfl
      · exact ih (n + 1) r h

theorem postRun_actions (handler : Handler) (bodies : List Msg) (n : Nat) :
    ∀ r ∈ postRun handler bodies n, r.actions = (handler r.builder.reqBody r.builder).actions := by
  induction bodies generalizing n with
  | nil => intro r hr; simp [postRun] at hr
  | cons b bs ih =>
      intro r hr
      rcases (by simpa [postRun] using hr : r = postRoute handler b n ∨ r ∈ postRun handler bs (n + 1)) with h | h
      · subst h; rfl
      · exact ih (n + 1) r h

theorem wsRun_eq (msgs : List Msg) :
    wsRun msgs = (msgs.map (fun m => { bus := voiceEvents, payload := m }), []) := by
  induction msgs with
  | nil => rfl
  | cons m ms ih => simp [wsRun, wsMessage, ih]

/-- C1 counterexample: serving a POST whose handler throws makes zero
`res.end()` calls and lets the error escape the dispatcher uncaught, so the
response is left hanging — refuting that the dispatcher closes the response
and catches the failure at its boundary. -/
theorem c1_throwing_handler_leaves_response_open :
    (postRoute (fun _ _ => { actions := [], outcome := HandlerOutcome.thrown "boom" })
        "call.start" 0).endCalls = 0 ∧
    (postRoute (fun _ _ => { actions := [], outcome := HandlerOutcome.thrown "boom" })
        "call.start" 0).uncaught = some "boom" :=
  ⟨rfl, rfl⟩

/-- C1 amended: on normal handler return the POST route calls `res.end()`
exactly once and no error escapes; when the handler throws, the route has no
try/catch, so `res.end()` is never called and the error escapes the
dispatcher uncaught, leaving the response open. -/
theorem c1_response_close_semantics (handler : Handler) (body : Msg) (n : Nat) :
    ((handler body { objId := n, reqBody := body, bus := voiceEvents }).outcome =
        HandlerOutcome.normal →
      (postRoute handler body n).endCalls = 1 ∧ (postRoute handler body n).uncaught = none) ∧
    (∀ e, (handler body { objId := n, reqBody := body, bus := voiceEvents }).outcome =
        HandlerOutcome.thrown e →
      (postRoute handler body n).endCalls = 0 ∧ (postRoute handler body n).uncaught = some e) := by
  constructor
  · intro h; constructor <;> simp [postRoute, h]
  · intro e h; constructor <;> simp [postRoute, h]

/-- Closed instance of the amended C1 theorem at concrete handlers. -/
theorem c1_response_close_semantics_witness :
    (postRoute (fun b _ => { actions := [b], outcome := HandlerOutcome.normal }) "hi" 5).endCalls = 1 ∧
    (postRoute (fun _ _ => { actions := [], outcome := HandlerOutcome.thrown "e1" }) "hi" 5).uncaught = some "e1" :=
  ⟨((c1_response_close_semantics
      (fun b _ => { actions := [b], outcome := HandlerOutcome.normal }) "hi" 5).1 rfl).1,
   ((c1_response_close_semantics
      (fun _ _ => { actions := [], outcome := HandlerOutcome.thrown "e1" }) "hi" 5).2 "e1" rfl).2⟩

/-- C2: every POST constructs a fresh `VoiceResponse` builder: over any run,
two distinct requests receive distinct builder objects, and the action
sequence recorded for each request is exactly what its own handler
invocation produced on its own builder. -/
theorem c2_fresh_builder_per_request (handler : Handler) (bodies : List Msg) (n : Nat) :
    (∀ i j (hi : i < (postRun handler bodies n).length)
        (hj : j < (postRun handler bodies n).length), i ≠ j →
      ((postRun handler bodies n).get ⟨i, hi⟩).builder ≠
        ((postRun handler bodies n).get ⟨j, hj⟩).builder) ∧
    (∀ r ∈ postRun handler bodies n,
      r.actions = (handler r.builder.reqBody r.builder).actions) := by
  refine ⟨?_, postRun_actions handler bodies n⟩
  intro i j hi hj hij heq
  rw [postRun_get, postRun_get] at heq
  have hobj := congrArg VoiceResponse.objId heq
  simp only [postRoute] at hobj
  omega

/-- Closed instance of the C2 theorem: in a two-request run the two builders
differ. -/
theorem c2_fresh_builder_per_request_witness :
    ((postRun (fun b _ => { actions := [b], outcome := HandlerOutcome.normal }) ["a", "b"] 0).get
        ⟨0, by rw [postRun_length]; decide⟩).builder ≠
      ((postRun (fun b _ => { actions := [b], outcome := HandlerOutcome.normal }) ["a", "b"] 0).get
        ⟨1, by rw [postRun_length]; decide⟩).builder :=
  (c2_fresh_builder_per_request
      (fun b _ => { actions := [b], outcome := HandlerOutcome.normal }) ["a", "b"] 0).1
    0 1 _ _ (by decide)

/-- C3: the module allocates a single Event Bus instance; every builder
constructed by the POST route and every broadcast made by the realtime relay
refer to that same instance, across all requests and connections. -/
theorem c3_single_bus_instance (handler : Handler) (bodies : List Msg) (n : Nat)
    (msgs : List Msg) :
    (∀ r ∈ postRun handler bodies n, r.builder.bus = voiceEvents) ∧
    (∀ b ∈ (wsRun msgs).1, b.bus = voiceEvents) := by
  refine ⟨postRun_bus handler bodies n, ?_⟩
  intro b hb
  rw [wsRun_eq] at hb
  simp only [List.mem_map] at hb
  obtain ⟨m, _, hm⟩ := hb
  rw [← hm]

/-- Closed instance of the C3 theorem at a one-request, one-message run. -/
theorem c3_single_bus_instance_witness :
    (postRoute (fun _ _ => { actions := [], outcome := HandlerOutcome.normal }) "a" 0).builder.bus
        = voiceEvents ∧
    Broadcast.bus { bus := voiceEvents, payload := "ding" } = voiceEvents :=
  ⟨(c3_single_bus_instance (fun _ _ => { actions := [], outcome := HandlerOutcome.normal })
      ["a"] 0 ["ding"]).1 _ (by simp [postRun]),
   (c3_single_bus_instance (fun _ _ => { actions := [], outcome := HandlerOutcome.normal })
      ["a"] 0 ["ding"]).2 _ (by simp [wsRun, wsMessage])⟩

/-- C5: the realtime relay emits exactly one broadcast per inbound message,
carrying the raw payload unmodified to the module bus; it sends nothing back
to the client, and the per-message handler is a pure function of the single
message alone, keeping no per-connection state. -/
theorem c5_relay_forwards_raw (msgs : List Msg) :
    (wsRun msgs).1 = msgs.map (fun m => { bus := voiceEvents, payload := m }) ∧
    (wsRun msgs).2 = [] ∧
    ∀ m : Msg, wsMessage m = ([{ bus := voiceEvents, payload := m }], []) :=
  ⟨by rw [wsRun_eq], by rw [wsRun_eq], fun _ => rfl⟩

/-- C6: the effective config is the given config merged over the defaults:
each of `path`, `port`, `bind` keeps the caller's value when specified and
falls back to its default ("/", 3000, "0.0.0.0") when not, and an omitted
config yields exactly the defaults. -/
theorem c6_config_merge_defaults (c : ConfigInput) :
    (VoiceServer.mkConfig (some c)).path = c.path.getD "/" ∧
    (VoiceServer.mkConfig (some c)).port = c.port.getD 3000 ∧
    (VoiceServer.mkConfig (some c)).bind = c.bind.getD "0.0.0.0" ∧
    VoiceServer.mkConfig none = defaultServerConfig :=
  ⟨rfl, rfl, rfl, rfl⟩

/-- C7: a `GET /tts/:file` whose file is missing or unreadable completes the
response with the fixed error body and ends it; an existing file is served
with the audio content type; in every case the route runs to completion and
ends the response, so the process does not crash. -/
theorem c7_tts_missing_not_fatal (fs : String → Option (List Nat)) (file : String) :
    (fs ("./.tts/" ++ file) = none →
      ttsRoute fs file =
        { body := some (SentBody.text "unable to find or open file")
          contentType := none
          ended := true }) ∧
    (∀ data, fs ("./.tts/" ++ file) = some data →
      (ttsRoute fs file).contentType = some "audio/x-wav") ∧
    (ttsRoute fs file).ended = true := by
  refine ⟨fun h => by simp [ttsRoute, h], fun data h => by simp [ttsRoute, h], ?_⟩
  unfold ttsRoute
  cases fs ("./.tts/" ++ file) <;> rfl

/-- Closed instance of the C7 theorem: a missing file yields the error-body
response, an existing file the audio content type. -/
theorem c7_tts_missing_not_fatal_witness :
    ttsRoute (fun _ => none) "missing.wav" =
      { body := some (SentBody.text "unable to find or open file")
        contentType := none
        ended := true } ∧
    (ttsRoute (fun _ => some [0]) "beep.wav").contentType = some "audio/x-wav" :=
  ⟨(c7_tts_missing_not_fatal (fun _ => none) "missing.wav").1 rfl,
   (c7_tts_missing_not_fatal (fun _ => some [0]) "beep.wav").2.1 [0] rfl⟩

theorem find_in_window_none (pred : Msg → Bool) (t : Nat) :
    ∀ arrivals : List (Msg × Nat), (∀ a ∈ arrivals, a.2 < t → pred a.1 = false) →
      (arrivals.takeWhile (fun a => a.2 < t)).find? (fun a => pred a.1) = none := by
  intro arrivals
  induction arrivals with
  | nil => intro _; rfl
  | cons a as ih =>
      intro h
      by_cases hlt : a.2 < t
      · have hp : pred a.1 = false := h a (by simp) hlt
        simp only [List.takeWhile_cons, decide_eq_true hlt, if_true, cond_true,
          List.find?_cons, hp, cond_false]
        exact ih (fun b hb => h b (by simp [hb]))
      · simp [List.takeWhile_cons, hlt]

theorem find_in_window_first (pred : Msg → Bool) (t : Nat) :
    ∀ (pre : List (Msg × Nat)) (a : Msg × Nat) (post : List (Msg × Nat)),
      a.2 < t → pred a.1 = true → (∀ b ∈ pre, b.2 < t ∧ pred b.1 = false) →
      ((pre ++ a :: post).takeWhile (fun x => x.2 < t)).find? (fun x => pred x.1) = some a := by
  intro pre
  induction pre with
  | nil =>
      intro a post ha hp _
      simp only [List.nil_append, List.takeWhile_cons, decide_eq_true ha, if_true, cond_true,
        List.find?_cons, hp, cond_true]
  | cons b bs ih =>
      intro a post ha hp hpre
      have hb := hpre b (by simp)
      simp only [List.cons_append, List.takeWhile_cons, decide_eq_true hb.1, if_true, cond_true,
        List.find?_cons, hb.2, cond_false]
      exact ih a post ha hp (fun x hx => hpre x (by simp [hx]))

/-- C4: `waitForEvent(predicate, t)` resolves with the first broadcast
message satisfying the predicate delivered before `t` elapses; when no
message delivered within `t` satisfies it, the call resolves with the
distinguishable timeout outcome; and in either case the subscription made
by the call is removed again, so the bus listener set is left unchanged. -/
theorem c4_waitForEvent_first_or_timeout (bus : EventBus) (pred : Msg → Bool) (t : Nat)
    (arrivals : List (Msg × Nat)) (hfresh : bus.nextHandle ∉ bus.listeners) :
    (∀ pre a post, arrivals = pre ++ a :: post → a.2 < t → pred a.1 = true →
        (∀ b ∈ pre, b.2 < t ∧ pred b.1 = false) →
        (waitForEvent bus pred t arrivals).1 = WaitOutcome.event a.1) ∧
    ((∀ a ∈ arrivals, a.2 < t → pred a.1 = false) →
        (waitForEvent bus pred t arrivals).1 = WaitOutcome.timedOut) ∧
    (waitForEvent bus pred t arrivals).2.listeners = bus.listeners := by
  refine ⟨?_, ?_, ?_⟩
  · intro pre a post harr ha hp hpre
    subst harr
    simp only [waitForEvent]
    rw [find_in_window_first pred t pre a post ha hp hpre]
  · intro h
    simp only [waitForEvent]
    rw [find_in_window_none pred t arrivals h]
  · simp only [waitForEvent, EventBus.subscribe, EventBus.unsubscribe, List.filter_append]
    have h1 : List.filter (fun l => decide (l ≠ bus.nextHandle)) [bus.nextHandle] = [] := by
      simp
    have h2 : List.filter (fun l => decide (l ≠ bus.nextHandle)) bus.listeners = bus.listeners := by
      rw [List.filter_eq_self]
      intro a ha
      simp only [decide_eq_true_eq]
      intro heq
      exact hfresh (heq ▸ ha)
    rw [h1, h2, List.append_nil]

/-- Closed instance of the C4 theorem: a matching message delivered in time
resolves the wait with that message, no matching message yields the timeout
outcome, and the listener set is restored. -/
theorem c4_waitForEvent_first_or_timeout_witness :
    (waitForEvent { listeners := [7], nextHandle := 8 } (fun m => m == "digit") 5000
        [("noise", 10), ("digit", 20)]).1 = WaitOutcome.event "digit" ∧
    (waitForEvent { listeners := [7], nextHandle := 8 } (fun m => m == "digit") 5000
        [("noise", 10)]).1 = WaitOutcome.timedOut ∧
    (waitForEvent { listeners := [7], nextHandle := 8 } (fun m => m == "digit") 5000
        [("noise", 10), ("digit", 20)]).2.listeners = [7] :=
  ⟨(c4_waitForEvent_first_or_timeout { listeners := [7], nextHandle := 8 }
        (fun m => m == "digit") 5000 [("noise", 10), ("digit", 20)] (by decide)).1
      [("noise", 10)] ("digit", 20) [] rfl (by decide) (by decide) (by decide),
   (c4_waitForEvent_first_or_timeout { listeners := [7], nextHandle := 8 }
        (fun m => m == "digit") 5000 [("noise", 10)] (by decide)).2.1 (by decide),
   (c4_waitForEvent_first_or_timeout { listeners := [7], nextHandle := 8 }
        (fun m => m == "digit") 5000 [("noise", 10), ("digit", 20)] (by decide)).2.2⟩

end Voice
end Fonos

namespace Fonos
namespace Funcs

theorem deployFold (em : Bool) (msgs : List ProgressMsg) :
    ∀ s : DeployState, List.foldl (deployStep em) s (msgs.map StreamEvent.data) =
      { forwarded := s.forwarded ++ (if em then msgs else []), settled := s.settled } := by
  induction msgs with
  | nil => intro s; simp
  | cons m ms ih =>
      intro s
      simp only [List.map_cons, List.foldl_cons, deployStep, ih]
      cases em <;> simp

/-- C8: consuming a deployment stream that emits its progress messages and
then one terminal signal forwards every message to the emitter exactly when
one was supplied (and nothing otherwise), and settles the promise exactly
once: resolved on normal stream end, rejected with the stream's error on
failure. -/
theorem c8_deploy_stream_contract (emitterPresent : Bool) (msgs : List ProgressMsg)
    (t : Settled Err Unit) :
    deployRun emitterPresent (msgs.map StreamEvent.data ++ [terminalEvent t]) =
      { forwarded := if emitterPresent then msgs else [], settled := some t } := by
  unfold deployRun
  rw [List.foldl_append, deployFold]
  cases t with
  | resolved a => cases a; simp [terminalEvent, deployStep]
  | rejected e => simp [terminalEvent, deployStep]

/-- C9: in `getFunc`, an error reported by the RPC callback rejects the
promise with that error (the stray `resolve` after the missing `return`
cannot settle an already-rejected promise, and it throws on the absent
response before running anyway); a successful callback resolves with
exactly the five fields read from the response. -/
theorem c9_getFunc_settlement (e : Option Err) (res : Option Func) :
    (∀ err, e = some err →
        settleOf (getFuncCallback e res) = some (Settled.rejected err)) ∧
    (∀ r, e = none → res = some r →
        settleOf (getFuncCallback e res) = some (Settled.resolved
          { name := r.name
            image := r.image
            invocationCount := r.invocationCount
            replicas := r.replicas
            availableReplicas := r.availableReplicas })) := by
  constructor
  · intro err he
    subst he
    cases res <;> rfl
  · intro r he hr
    subst he
    subst hr
    rfl

/-- Closed instance of the C9 theorem at a failed and a successful call. -/
theorem c9_getFunc_settlement_witness :
    settleOf (getFuncCallback (some "rpc failed") none) = some (Settled.rejected "rpc failed") ∧
    settleOf (getFuncCallback none (some
        { name := "f1", image := "img", invocationCount := 2, replicas := 3,
          availableReplicas := 1 })) =
      some (Settled.resolved
        { name := "f1", image := "img", invocationCount := 2, replicas := 3,
          availableReplicas := 1 }) :=
  ⟨(c9_getFunc_settlement (some "rpc failed") none).1 "rpc failed" rfl,
   (c9_getFunc_settlement none (some
        { name := "f1", image := "img", invocationCount := 2, replicas := 3,
          availableReplicas := 1 })).2
      { name := "f1", image := "img", invocationCount := 2, replicas := 3,
        availableReplicas := 1 } rfl rfl⟩

/-- C10: a successful `deleteFunc` callback resolves the promise with
exactly the name echoed from the caller's request, and the callback is
independent of the server's response payload, which it never reads. -/
theorem c10_deleteFunc_echoes_request_name {ρ : Type} (requestName : String)
    (e : Option Err) (resp resp2 : ρ) :
    settleOf (deleteFuncCallback requestName none resp) =
      some (Settled.resolved { name := requestName }) ∧
    deleteFuncCallback requestName e resp = deleteFuncCallback requestName e resp2 :=
  ⟨rfl, rfl⟩

end Funcs
end Fonos
